import Mathlib

/-
  Verification of the gohttp egress resource manager (client.go, part_001 variant).

  Shallow embedding: the package-level mutable globals (defaultOption, useMap,
  clientMap, proxyTransport, hostDelay, the keep-alive setting of the shared
  default transport, and a counter tagging freshly created cookie jars) are
  gathered into an explicit state record that every operation threads through.
  Durations and timestamps are Int nanoseconds, exactly as Go's time.Duration
  and the differences of time.Time values. External effects (url.Parse host
  extraction, net.ResolveTCPAddr) are oracle functions passed as parameters.
-/

namespace Gohttp

/-- Association list standing in for a Go map with string keys. -/
def insertA {α : Type} : List (String × α) → String → α → List (String × α)
  | [], k, v => [(k, v)]
  | (k2, v2) :: rest, k, v =>
      if k2 = k then (k, v) :: rest else (k2, v2) :: insertA rest k v

def lookupA {α : Type} : List (String × α) → String → Option α
  | [], _ => none
  | (k2, v2) :: rest, k => if k2 = k then some v2 else lookupA rest k

/-- Go struct useInfo: per-host rotation cursor and last-dispatch timestamp. -/
structure UseInfo where
  index : Nat
  lastTime : Int
deriving DecidableEq, Repr

/-- Go struct Option (named GoOption because Option is taken in Lean). -/
structure GoOption where
  address : List String
  connectTimeout : Int
  timeout : Int
  agent : String
  delay : Int
  maxRedirects : Int
  maxIdleConns : Int
deriving DecidableEq, Repr

/-- Cookie jars: the shared defaultCookiejar, or a jar created by a later
MakeCookiejar call, tagged by a creation counter. -/
inductive Jar where
  | shared : Jar
  | fresh : Nat → Jar
deriving DecidableEq, Repr

/-- An http.Transport built by MakeTransport for one egress address. -/
structure EgressTransport where
  localAddr : Option String
  dialTimeout : Int
  maxIdleConnsPerHost : Int
  disableKeepAlives : Bool
deriving DecidableEq, Repr

inductive Transport where
  | default : Transport
  | proxy : String → Transport
  | egress : EgressTransport → Transport
deriving DecidableEq, Repr

/-- Go struct clientResource. -/
structure clientResource where
  transport : Transport
  jar : Jar
deriving DecidableEq, Repr

/-- An http.Client as assembled by MakeClient. -/
structure Client where
  jar : Jar
  transport : Transport
  timeout : Int
deriving DecidableEq, Repr

/-- The package-level mutable globals of client.go. -/
structure GoState where
  defaultOption : GoOption
  useMap : List (String × UseInfo)
  clientMap : List (String × clientResource)
  proxyTransport : Option String
  hostDelay : List (String × Int)
  defaultTransportMaxIdle : Int
  nextJar : Nat
deriving DecidableEq, Repr

/-- MakeCookiejar: each call creates a brand-new jar (counter keeps identities
distinct). -/
def MakeCookiejar (st : GoState) : Jar × GoState :=
  (Jar.fresh st.nextJar, { st with nextJar := st.nextJar + 1 })

/-- MakeClient: assembles an http.Client with the fixed 60-second timeout. -/
def MakeClient (transport : Transport) (jar : Jar) : Client :=
  { jar := jar, transport := transport, timeout := 60 * 1000000000 }

/-- MakeTransport: resolves ip plus port 0 to a local TCP address, discarding
the resolution error exactly as the source does with a blank identifier, and
builds a transport honoring MaxIdleConns. -/
def MakeTransport (resolve : String → Option String) (opt : GoOption)
    (ip : String) : EgressTransport :=
  let addr := resolve (ip ++ ":0")
  { localAddr := addr
    dialTimeout := opt.connectTimeout
    maxIdleConnsPerHost := opt.maxIdleConns
    disableKeepAlives := if opt.maxIdleConns ≤ 0 then true else false }

/-- SetHostDelay: mirrors the source branch structure; the guarded branch and
the fall-through both store the incoming delay. -/
def SetHostDelay (st : GoState) (host : String) (delay : Int) : GoState :=
  match lookupA st.hostDelay host with
  | some d =>
      if delay > d then { st with hostDelay := insertA st.hostDelay host delay }
      else { st with hostDelay := insertA st.hostDelay host delay }
  | none => { st with hostDelay := insertA st.hostDelay host delay }

/-- GetHostDelay: stored override, else the configured default delay. -/
def GetHostDelay (st : GoState) (host : String) : Int :=
  match lookupA st.hostDelay host with
  | some d => d
  | none => st.defaultOption.delay

/-- SetOption: field-by-field merge guarded on non-zero or non-empty values;
non-empty address appends to the pool and replaces clientMap with a new empty
map; positive MaxIdleConns also updates the shared default transport. -/
def SetOption (opt : GoOption) (st : GoState) : GoState :=
  let d0 := st.defaultOption
  let d1 := if opt.agent ≠ "" then { d0 with agent := opt.agent } else d0
  let d2 := if 0 < opt.connectTimeout then
      { d1 with connectTimeout := opt.connectTimeout } else d1
  let d3 := if 0 < opt.delay then { d2 with delay := opt.delay } else d2
  let ac : GoOption × List (String × clientResource) :=
      if opt.address ≠ [] then
        ({ d3 with address := d3.address ++ opt.address }, [])
      else (d3, st.clientMap)
  let d5 := if 0 < opt.maxRedirects then
      { ac.1 with maxRedirects := opt.maxRedirects } else ac.1
  let mi : GoOption × Int :=
      if 0 < opt.maxIdleConns then
        ({ d5 with maxIdleConns := opt.maxIdleConns }, opt.maxIdleConns)
      else (d5, st.defaultTransportMaxIdle)
  { st with defaultOption := mi.1, clientMap := ac.2, defaultTransportMaxIdle := mi.2 }

/-- Result of the dispatch-state critical section of GetHttpClient. -/
structure DispatchResult where
  state : GoState
  use : UseInfo
  delay : Int
deriving DecidableEq, Repr

/-- The dispatch-state critical section of GetHttpClient (lines 185-210 of the
source): look up or create the per-host useInfo, advance the cursor when the
pool is non-empty, compute the enforced delay on a cursor collision, and store
the reservation lastTime = now + delay. -/
def dispatchCompute (st : GoState) (host : String) (now : Int) : DispatchResult :=
  let need := GetHostDelay st host
  match lookupA st.useMap host with
  | some use =>
      let lastIndex := use.index
      let idx := if st.defaultOption.address.length ≠ 0
                 then (use.index + 1) % st.defaultOption.address.length
                 else use.index
      let d := if lastIndex = idx ∧ 0 < need then
                 let sub := now - use.lastTime
                 if sub < need then need - sub else 0
               else 0
      let use2 : UseInfo := { index := idx, lastTime := now + d }
      { state := { st with useMap := insertA st.useMap host use2 }
        use := use2, delay := d }
  | none =>
      let use2 : UseInfo := { index := 0, lastTime := now }
      { state := { st with useMap := insertA st.useMap host use2 }
        use := use2, delay := 0 }

/-- Tail of GetHttpClient: honor the usejar flag, making a brand-new jar when
it is false. -/
def finishClient (st : GoState) (res : clientResource) (usejar : Bool) :
    GoState × Client :=
  if usejar then (st, MakeClient res.transport res.jar)
  else
    let p := MakeCookiejar st
    (p.2, MakeClient res.transport p.1)

/-- GetHttpClient: proxy path re-points the single shared proxy transport;
otherwise the dispatch computation runs for the target host, the caller sleeps
the computed delay, and the per-address cached resource (or the default one)
is assembled into a client. Returns none exactly when url.Parse fails. -/
def GetHttpClient (parse resolve : String → Option String) (st : GoState)
    (urlStr proxy : String) (usejar : Bool) (now : Int) :
    Option (GoState × Client) :=
  if proxy ≠ "" then
    match parse proxy with
    | none => none
    | some _ =>
      let st1 := match st.proxyTransport with
                 | none => { st with proxyTransport := some proxy }
                 | some _ => { st with proxyTransport := some proxy }
      some (finishClient st1
        { transport := Transport.proxy proxy, jar := Jar.shared } usejar)
  else
    match parse urlStr with
    | none => none
    | some host =>
      let r := dispatchCompute st host now
      if r.state.defaultOption.address.length = 0 then
        some (finishClient r.state
          { transport := Transport.default, jar := Jar.shared } usejar)
      else
        let ip := r.state.defaultOption.address.getD r.use.index ""
        match lookupA r.state.clientMap ip with
        | some v => some (finishClient r.state v usejar)
        | none =>
          let p := MakeCookiejar r.state
          let res : clientResource :=
            { transport := Transport.egress (MakeTransport resolve p.2.defaultOption ip)
              jar := p.1 }
          some (finishClient { p.2 with clientMap := insertA p.2.clientMap ip res } res usejar)

/-- One dispatch: run the critical section at time now, then sleep the delay;
returns the new state and the completion time now + delay. -/
def dispatchOnce (st : GoState) (host : String) (now : Int) : GoState × Int :=
  let r := dispatchCompute st host now
  (r.state, now + r.delay)

/-- A sequence of dispatches to one host: the first starts at time t; after
each completion the next starts after the corresponding gap. Returns the final
state and the completion time of the last dispatch. -/
def seqRun (host : String) : GoState → Int → List Int → GoState × Int
  | st, t, [] => dispatchOnce st host t
  | st, t, g :: gs =>
    let p := dispatchOnce st host t
    seqRun host p.1 (p.2 + g) gs

/-- The public mutating operations a caller can interleave. -/
inductive GoOp where
  | setOpt : GoOption → GoOp
  | getClient : String → String → Bool → Int → GoOp
deriving Repr

def stepOp (parse resolve : String → Option String) (st : GoState) :
    GoOp → GoState
  | GoOp.setOpt o => SetOption o st
  | GoOp.getClient u p j n =>
      match GetHttpClient parse resolve st u p j n with
      | none => st
      | some q => q.1

def runOps (parse resolve : String → Option String) (st : GoState)
    (ops : List GoOp) : GoState :=
  ops.foldl (stepOp parse resolve) st

/-- The initial package state: defaultOption literal from the source, empty
registries. -/
def initState : GoState :=
  { defaultOption :=
      { address := [], connectTimeout := 30000 * 1000000, timeout := 0
        agent := "gohttp v1.0", delay := 0, maxRedirects := -1, maxIdleConns := 0 }
    useMap := [], clientMap := [], proxyTransport := none, hostDelay := []
    defaultTransportMaxIdle := 0, nextJar := 0 }

def acquiredClient (r : Option (GoState × Client)) : Option Client :=
  r.map Prod.snd

def acquiredTransport (r : Option (GoState × Client)) : Option Transport :=
  (acquiredClient r).map Client.transport

def acquiredJar (r : Option (GoState × Client)) : Option Jar :=
  (acquiredClient r).map Client.jar

theorem lookupA_insertA_self {α : Type} (m : List (String × α)) (k : String) (v : α) :
    lookupA (insertA m k v) k = some v := by
  induction m with
  | nil => simp [insertA, lookupA]
  | cons q rest ih =>
    obtain ⟨k2, v2⟩ := q
    by_cases h : k2 = k
    · simp [insertA, lookupA, h]
    · simp [insertA, lookupA, h, ih]

theorem mem_insertA {α : Type} {q : String × α} {m : List (String × α)}
    {k : String} {v : α} (h : q ∈ insertA m k v) : q = (k, v) ∨ q ∈ m := by
  induction m with
  | nil => simpa [insertA] using h
  | cons r rest ih =>
    obtain ⟨k2, v2⟩ := r
    by_cases hk : k2 = k
    · simp only [insertA, if_pos hk, List.mem_cons] at h
      rcases h with h | h
      · exact Or.inl h
      · exact Or.inr (List.mem_cons_of_mem _ h)
    · simp only [insertA, if_neg hk, List.mem_cons] at h
      rcases h with h | h
      · exact Or.inr (h ▸ List.mem_cons_self _ _)
      · rcases ih h with h2 | h2
        · exact Or.inl h2
        · exact Or.inr (List.mem_cons_of_mem _ h2)

theorem lookupA_mem {α : Type} {m : List (String × α)} {k : String} {v : α}
    (h : lookupA m k = some v) : (k, v) ∈ m := by
  induction m with
  | nil => simp [lookupA] at h
  | cons r rest ih =>
    obtain ⟨k2, v2⟩ := r
    by_cases hk : k2 = k
    · simp only [lookupA, if_pos hk] at h
      subst hk
      obtain rfl : v2 = v := by injection h
      exact List.mem_cons_self _ _
    · simp only [lookupA, if_neg hk] at h
      exact List.mem_cons_of_mem _ (ih h)

theorem dispatchCompute_frame (st : GoState) (host : String) (now : Int) :
    (dispatchCompute st host now).state.defaultOption = st.defaultOption ∧
    (dispatchCompute st host now).state.hostDelay = st.hostDelay ∧
    (dispatchCompute st host now).state.clientMap = st.clientMap ∧
    (dispatchCompute st host now).state.proxyTransport = st.proxyTransport := by
  cases h : lookupA st.useMap host with
  | none => simp [dispatchCompute, h]
  | some u => simp [dispatchCompute, h]

theorem GetHostDelay_congr (st1 st2 : GoState) (host : String)
    (h1 : st1.hostDelay = st2.hostDelay)
    (h2 : st1.defaultOption = st2.defaultOption) :
    GetHostDelay st1 host = GetHostDelay st2 host := by
  unfold GetHostDelay
  rw [h1, h2]

theorem dispatchCompute_le_one (st : GoState) (host : String) (now : Int)
    (u : UseInfo) (hu : lookupA st.useMap host = some u) (hidx : u.index = 0)
    (hlen : st.defaultOption.address.length ≤ 1)
    (hD : 0 < GetHostDelay st host) :
    (dispatchCompute st host now).delay =
      (if now - u.lastTime < GetHostDelay st host
       then GetHostDelay st host - (now - u.lastTime) else 0) ∧
    (dispatchCompute st host now).use =
      { index := 0, lastTime := now + (dispatchCompute st host now).delay } := by
  rcases Nat.le_one_iff_eq_zero_or_eq_one.mp hlen with h0 | h1
  · simp [dispatchCompute, hu, h0, hidx, hD]
  · simp [dispatchCompute, hu, h1, hidx, hD]

theorem dispatchOnce_step (st : GoState) (host : String) (t : Int) (u : UseInfo)
    (D : Int) (hu : lookupA st.useMap host = some u) (hidx : u.index = 0)
    (hlen : st.defaultOption.address.length ≤ 1)
    (hD : GetHostDelay st host = D) (hDpos : 0 < D) :
    (dispatchOnce st host t).2 = max t (u.lastTime + D) ∧
    lookupA (dispatchOnce st host t).1.useMap host =
      some { index := 0, lastTime := max t (u.lastTime + D) } ∧
    (dispatchOnce st host t).1.defaultOption = st.defaultOption ∧
    (dispatchOnce st host t).1.hostDelay = st.hostDelay := by
  obtain ⟨hd, huse⟩ := dispatchCompute_le_one st host t u hu hidx hlen (hD ▸ hDpos)
  have hcomp : t + (dispatchCompute st host t).delay = max t (u.lastTime + D) := by
    rw [hd, hD]
    rcases lt_or_le (t - u.lastTime) D with h | h
    · rw [if_pos h, max_eq_right (by omega)]
      omega
    · rw [if_neg (not_lt.mpr h), max_eq_left (by omega)]
      omega
  refine ⟨hcomp, ?_, (dispatchCompute_frame st host t).1, (dispatchCompute_frame st host t).2.1⟩
  have hmap : (dispatchOnce st host t).1.useMap =
      insertA st.useMap host (dispatchCompute st host t).use := by
    cases h : lookupA st.useMap host with
    | none => rw [h] at hu; exact absurd hu (by simp)
    | some w => simp [dispatchOnce, dispatchCompute, h]
  rw [hmap, huse, ← hcomp]
  exact lookupA_insertA_self _ _ _

theorem seqRun_ge (host : String) (D : Int) (gaps : List Int) :
    ∀ (st : GoState) (u : UseInfo) (t : Int),
      lookupA st.useMap host = some u → u.index = 0 →
      st.defaultOption.address.length ≤ 1 →
      GetHostDelay st host = D → 0 < D →
      max t (u.lastTime + D) + (gaps.length : Int) * D ≤ (seqRun host st t gaps).2 := by
  induction gaps with
  | nil =>
    intro st u t hu hidx hlen hD hDpos
    obtain ⟨h1, _, _, _⟩ := dispatchOnce_step st host t u D hu hidx hlen hD hDpos
    simp [seqRun, h1]
  | cons g gs ih =>
    intro st u t hu hidx hlen hD hDpos
    obtain ⟨h1, h2, h3, h4⟩ := dispatchOnce_step st host t u D hu hidx hlen hD hDpos
    have hD2 : GetHostDelay (dispatchOnce st host t).1 host = D := by
      rw [GetHostDelay_congr _ st host h4 h3, hD]
    have hrec := ih (dispatchOnce st host t).1
      { index := 0, lastTime := max t (u.lastTime + D) }
      ((dispatchOnce st host t).2 + g) h2 rfl (by rw [h3]; exact hlen) hD2 hDpos
    have hseq : (seqRun host st t (g :: gs)).2 =
        (seqRun host (dispatchOnce st host t).1 ((dispatchOnce st host t).2 + g) gs).2 := by
      simp [seqRun]
    have hmax : max t (u.lastTime + D) + D ≤
        max ((dispatchOnce st host t).2 + g) (max t (u.lastTime + D) + D) :=
      le_max_right _ _
    have hlen2 : ((g :: gs).length : Int) = (gs.length : Int) + 1 := by
      simp
    rw [hseq, hlen2]
    have : max t (u.lastTime + D) + ((gs.length : Int) + 1) * D =
        (max t (u.lastTime + D) + D) + (gs.length : Int) * D := by ring
    rw [this]
    simp only [UseInfo.mk.injEq] at hrec
    linarith [hrec, hmax]

theorem succ_mod_ne (i n : Nat) (hn : 1 < n) : (i + 1) % n ≠ i := by
  intro h
  have hn0 : 0 < n := by omega
  have hlt : (i + 1) % n < n := Nat.mod_lt _ hn0
  have hi : i < n := h ▸ hlt
  rcases Nat.lt_or_ge (i + 1) n with h1 | h1
  · rw [Nat.mod_eq_of_lt h1] at h
    omega
  · have h2 : i + 1 = n := by omega
    rw [h2, Nat.mod_self] at h
    omega

/-- Claim C1: when the address pool has size 0 or 1 and the required delay D
for host H is positive, an existing-state dispatch computes
wait = D - elapsed when elapsed = now - lastDispatch < D and wait = 0
otherwise; consequently N sequential dispatches to H (the list of gaps has
length N - 1) finish no earlier than (N-1)*D after the first dispatch starts. -/
theorem C1_pool_le_one_rate_limited (st : GoState) (host : String) (u : UseInfo)
    (now t0 : Int) (gaps : List Int)
    (hu : lookupA st.useMap host = some u) (hidx : u.index = 0)
    (hlen : st.defaultOption.address.length ≤ 1)
    (hD : 0 < GetHostDelay st host)
    (_hgaps : ∀ g ∈ gaps, 0 ≤ g) :
    (dispatchCompute st host now).delay =
      (if now - u.lastTime < GetHostDelay st host
       then GetHostDelay st host - (now - u.lastTime) else 0) ∧
    t0 + (gaps.length : Int) * GetHostDelay st host ≤ (seqRun host st t0 gaps).2 := by
  refine ⟨(dispatchCompute_le_one st host now u hu hidx hlen hD).1, ?_⟩
  have hseq := seqRun_ge host (GetHostDelay st host) gaps st u t0 hu hidx hlen rfl hD
  have hmax : t0 ≤ max t0 (u.lastTime + GetHostDelay st host) := le_max_left _ _
  linarith [hseq, hmax]

def stC1 : GoState :=
  { initState with
    useMap := [("h", { index := 0, lastTime := 0 })]
    hostDelay := [("h", 10)]
    defaultOption := { initState.defaultOption with address := ["a"] } }

/-- Witness for C1: concrete single-address pool, host state at time 0,
delay 10; dispatch at time 3 waits 7, and three dispatches starting at time 0
finish no earlier than time 20. -/
theorem C1_pool_le_one_rate_limited_witness :
    (lookupA stC1.useMap "h" = some { index := 0, lastTime := 0 } ∧
     stC1.defaultOption.address.length ≤ 1 ∧
     0 < GetHostDelay stC1 "h" ∧ (∀ g ∈ ([0, 0] : List Int), 0 ≤ g)) ∧
    ((dispatchCompute stC1 "h" 3).delay =
      (if (3 : Int) - ({ index := 0, lastTime := 0 } : UseInfo).lastTime < GetHostDelay stC1 "h"
       then GetHostDelay stC1 "h" - ((3 : Int) - ({ index := 0, lastTime := 0 } : UseInfo).lastTime)
       else 0) ∧
     (0 : Int) + (([0, 0] : List Int).length : Int) * GetHostDelay stC1 "h" ≤
       (seqRun "h" stC1 0 [0, 0]).2) :=
  ⟨⟨by decide, by decide, by decide, by decide⟩,
    C1_pool_le_one_rate_limited stC1 "h" { index := 0, lastTime := 0 } 3 0 [0, 0]
      (by decide) rfl (by decide) (by decide) (by decide)⟩

def stC2 : GoState :=
  { initState with
    useMap := [("h", { index := 0, lastTime := 0 })]
    hostDelay := [("h", 10)]
    defaultOption := { initState.defaultOption with address := ["a", "b"] } }

/-- Counterexample to claim C2 as stated: pool size K = 2, required delay 10,
host state at time 0. Three immediate dispatches all complete with zero
enforced wait; in particular the (K+1)-th = third dispatch does not incur the
delay, contrary to the claim. -/
theorem C2_counterexample :
    0 < GetHostDelay stC2 "h" ∧
    1 < stC2.defaultOption.address.length ∧
    (dispatchCompute stC2 "h" 0).delay = 0 ∧
    (dispatchCompute (dispatchCompute stC2 "h" 0).state "h" 0).delay = 0 ∧
    (dispatchCompute (dispatchCompute (dispatchCompute stC2 "h" 0).state "h" 0).state
      "h" 0).delay = 0 := by
  decide

/-- Claim C2 (amended): when the pool has size K > 1, the advanced cursor
(i + 1) mod K never equals the previous cursor i, so no dispatch to a host
with existing state is ever rate-limited: every dispatch computes zero
enforced wait, regardless of the required delay. -/
theorem C2_pool_gt_one_never_delayed (st : GoState) (host : String) (now : Int)
    (u : UseInfo) (hu : lookupA st.useMap host = some u)
    (hK : 1 < st.defaultOption.address.length) :
    (dispatchCompute st host now).delay = 0 := by
  have hne : st.defaultOption.address.length ≠ 0 := by omega
  have hcol := succ_mod_ne u.index _ hK
  have hcol2 : ¬(u.index = (u.index + 1) % st.defaultOption.address.length) :=
    fun h => hcol h.symm
  simp [dispatchCompute, hu, hne, hcol2]

/-- Witness for C2 (amended): in the concrete two-address pool state, a
dispatch at time 0 computes zero wait. -/
theorem C2_pool_gt_one_never_delayed_witness :
    (lookupA stC2.useMap "h" = some { index := 0, lastTime := 0 } ∧
     1 < stC2.defaultOption.address.length) ∧
    (dispatchCompute stC2 "h" 0).delay = 0 :=
  ⟨⟨by decide, by decide⟩,
    C2_pool_gt_one_never_delayed stC2 "h" 0 { index := 0, lastTime := 0 }
      (by decide) (by decide)⟩

def stC3 : GoState :=
  { initState with
    defaultOption :=
      { initState.defaultOption with
        address := ["10.0.0.1", "10.0.0.2"], delay := 1000000000 } }

/-- Counterexample to claim C3 as stated: with pool ["10.0.0.1", "10.0.0.2"]
and a fresh host, the very first dispatch leaves the cursor at 0 (the creation
branch never advances it), selects address "10.0.0.1", not "10.0.0.2", and the
acquired client's transport is bound to 10.0.0.1. -/
theorem C3_counterexample :
    (dispatchCompute stC3 "example.com" 0).use.index = 0 ∧
    stC3.defaultOption.address.getD (dispatchCompute stC3 "example.com" 0).use.index "" =
      "10.0.0.1" ∧
    acquiredTransport (GetHttpClient (fun _ => some "example.com") (fun s => some s)
        stC3 "http://example.com/" "" true 0) =
      some (Transport.egress
        { localAddr := some "10.0.0.1:0", dialTimeout := 30000 * 1000000,
          maxIdleConnsPerHost := 0, disableKeepAlives := true }) := by
  decide

/-- Claim C3 (amended): the very first dispatch for a host creates the state
with cursor 0 and does not advance it, incurs no wait, and selects pool slot 0
when the pool is non-empty; every dispatch for a host whose state already
exists advances the cursor to (cursor + 1) mod poolSize when the pool is
non-empty. -/
theorem C3_cursor_advance (st st2 : GoState) (host : String) (now now2 : Int)
    (u : UseInfo) (hfresh : lookupA st.useMap host = none)
    (hu : lookupA st2.useMap host = some u)
    (hlen : st2.defaultOption.address.length ≠ 0) :
    (dispatchCompute st host now).use.index = 0 ∧
    (dispatchCompute st host now).delay = 0 ∧
    st.defaultOption.address.getD (dispatchCompute st host now).use.index "" =
      st.defaultOption.address.getD 0 "" ∧
    (dispatchCompute st2 host now2).use.index =
      (u.index + 1) % st2.defaultOption.address.length := by
  refine ⟨?_, ?_, ?_, ?_⟩
  · simp [dispatchCompute, hfresh]
  · simp [dispatchCompute, hfresh]
  · simp [dispatchCompute, hfresh]
  · simp [dispatchCompute, hu, hlen]

def stC3b : GoState :=
  { initState with
    useMap := [("e", { index := 0, lastTime := 0 })]
    defaultOption := { initState.defaultOption with address := ["x", "y"] } }

/-- Witness for C3 (amended): fresh host in stC3 keeps cursor 0 and selects
slot 0; a dispatch in stC3b, where the host state exists with cursor 0 and the
pool has two slots, advances the cursor to 1 mod 2. -/
theorem C3_cursor_advance_witness :
    (lookupA stC3.useMap "e" = none ∧
     lookupA stC3b.useMap "e" = some { index := 0, lastTime := 0 } ∧
     stC3b.defaultOption.address.length ≠ 0) ∧
    ((dispatchCompute stC3 "e" 0).use.index = 0 ∧
     (dispatchCompute stC3 "e" 0).delay = 0 ∧
     stC3.defaultOption.address.getD (dispatchCompute stC3 "e" 0).use.index "" =
       stC3.defaultOption.address.getD 0 "" ∧
     (dispatchCompute stC3b "e" 5).use.index =
       (({ index := 0, lastTime := 0 } : UseInfo).index + 1) %
         stC3b.defaultOption.address.length) :=
  ⟨⟨by decide, by decide, by decide⟩,
    C3_cursor_advance stC3 stC3b "e" 0 5 { index := 0, lastTime := 0 }
      (by decide) (by decide) (by decide)⟩

/-- Claim C4: after the dispatch computation for host H, the stored
lastDispatch timestamp for H equals now + wait, the reservation the caller is
about to sleep out, in both the lookup and the creation branch. -/
theorem C4_reservation_written (st : GoState) (host : String) (now : Int) :
    lookupA (dispatchCompute st host now).state.useMap host =
      some (dispatchCompute st host now).use ∧
    (dispatchCompute st host now).use.lastTime =
      now + (dispatchCompute st host now).delay := by
  cases h : lookupA st.useMap host with
  | none => simp [dispatchCompute, h, lookupA_insertA_self]
  | some u => simp [dispatchCompute, h, lookupA_insertA_self]

/-- Claim C5 (code bug): SetHostDelay("h", 5) followed by SetHostDelay("h", 2)
stores 2, not the maximum 5 — the guarded max branch is dead code because the
fall-through unconditionally overwrites the entry. -/
theorem C5_last_write_wins :
    GetHostDelay (SetHostDelay (SetHostDelay initState "h" 5) "h" 2) "h" = 2 ∧
    (2 : Int) ≠ 5 := by
  decide

def stC6 : GoState :=
  { initState with
    defaultOption := { initState.defaultOption with address := ["1.2.3.4"] } }

/-- Counterexample to claim C6 as stated: with a resolver that fails on the
configured egress address, client acquisition still succeeds — no error is
returned — and the client it hands back is routed through a transport with no
local address binding. -/
theorem C6_counterexample :
    (GetHttpClient (fun _ => some "h") (fun _ => none) stC6 "http://h/" "" true 0).isSome =
      true ∧
    acquiredTransport
        (GetHttpClient (fun _ => some "h") (fun _ => none) stC6 "http://h/" "" true 0) =
      some (Transport.egress
        { localAddr := none, dialTimeout := 30000 * 1000000,
          maxIdleConnsPerHost := 0, disableKeepAlives := true }) := by
  decide

/-- Claim C6 (amended): an egress address that cannot be resolved is silently
ignored: MakeTransport discards the resolution failure and builds a transport
with no local address, and non-proxy acquisition returns an error only on URL
parse failure — it always hands back a client once the target URL parses. -/
theorem C6_resolution_failure_ignored (parse resolve : String → Option String)
    (opt : GoOption) (ip : String) (st : GoState) (urlStr host : String)
    (usejar : Bool) (now : Int)
    (hres : resolve (ip ++ ":0") = none)
    (hparse : parse urlStr = some host) :
    (MakeTransport resolve opt ip).localAddr = none ∧
    (GetHttpClient parse resolve st urlStr "" usejar now).isSome = true := by
  constructor
  · simp [MakeTransport, hres]
  · simp only [GetHttpClient, ne_eq, not_true_eq_false, if_neg, hparse]
    simp only [not_true_eq_false, ite_false]
    split
    · simp [finishClient]
    · split <;> simp [finishClient]

/-- Witness for C6 (amended): concrete failing resolver and parsing target. -/
theorem C6_resolution_failure_ignored_witness :
    ((fun (_ : String) => (none : Option String)) ("1.2.3.4" ++ ":0") = none ∧
     (fun (_ : String) => some "h") "http://h/" = some "h") ∧
    ((MakeTransport (fun _ => none) stC6.defaultOption "1.2.3.4").localAddr = none ∧
     (GetHttpClient (fun _ => some "h") (fun _ => none) stC6 "http://h/" "" true 0).isSome =
       true) :=
  ⟨⟨rfl, rfl⟩,
    C6_resolution_failure_ignored (fun _ => some "h") (fun _ => none)
      stC6.defaultOption "1.2.3.4" stC6 "http://h/" "h" true 0 rfl rfl⟩

/-- Counterexample to claim C7 as stated: on the proxy path with
useSharedJar = false, the returned client carries a brand-new jar, not the
default shared cookie jar, so the jar is not chosen regardless of the flag. -/
theorem C7_counterexample :
    acquiredJar (GetHttpClient (fun s => some s) (fun s => some s) initState
        "u" "http://p" false 0) = some (Jar.fresh 0) ∧
    Jar.fresh 0 ≠ Jar.shared := by
  decide

/-- Claim C7 (amended): for a non-empty proxy URL, a parse failure yields an
error; otherwise the single shared proxy transport is created or re-pointed to
this proxy, no per-host dispatch state is touched (no per-host delay), and the
returned client uses that proxy transport together with the default shared jar
when useSharedJar is true and a brand-new jar when it is false. -/
theorem C7_proxy_path (parse resolve : String → Option String) (st : GoState)
    (urlStr proxy : String) (usejar : Bool) (now : Int)
    (hp : proxy ≠ "") :
    (parse proxy = none →
      GetHttpClient parse resolve st urlStr proxy usejar now = none) ∧
    (∀ x, parse proxy = some x →
      (GetHttpClient parse resolve st urlStr proxy usejar now).isSome = true ∧
      ∀ st2 c, GetHttpClient parse resolve st urlStr proxy usejar now = some (st2, c) →
        st2.proxyTransport = some proxy ∧ st2.useMap = st.useMap ∧
        st2.clientMap = st.clientMap ∧
        c.transport = Transport.proxy proxy ∧
        c.jar = (if usejar then Jar.shared else Jar.fresh st.nextJar)) := by
  constructor
  · intro hnone
    simp [GetHttpClient, hp, hnone]
  · intro x hx
    cases hpt : st.proxyTransport with
    | none =>
      cases usejar with
      | true =>
        constructor
        · simp [GetHttpClient, hp, hx, hpt, finishClient]
        · intro st2 c hc
          simp [GetHttpClient, hp, hx, hpt, finishClient, MakeClient] at hc
          obtain ⟨h1, h2⟩ := hc
          subst h1; subst h2
          simp [MakeClient]
      | false =>
        constructor
        · simp [GetHttpClient, hp, hx, hpt, finishClient]
        · intro st2 c hc
          simp [GetHttpClient, hp, hx, hpt, finishClient, MakeClient, MakeCookiejar] at hc
          obtain ⟨h1, h2⟩ := hc
          subst h1; subst h2
          simp [MakeClient]
    | some y =>
      cases usejar with
      | true =>
        constructor
        · simp [GetHttpClient, hp, hx, hpt, finishClient]
        · intro st2 c hc
          simp [GetHttpClient, hp, hx, hpt, finishClient, MakeClient] at hc
          obtain ⟨h1, h2⟩ := hc
          subst h1; subst h2
          simp [MakeClient]
      | false =>
        constructor
        · simp [GetHttpClient, hp, hx, hpt, finishClient]
        · intro st2 c hc
          simp [GetHttpClient, hp, hx, hpt, finishClient, MakeClient, MakeCookiejar] at hc
          obtain ⟨h1, h2⟩ := hc
          subst h1; subst h2
          simp [MakeClient]

/-- Witness for C7 (amended): concrete proxy URL in the initial state. -/
theorem C7_proxy_path_witness :
    ("http://p" ≠ "") ∧
    (((fun (s : String) => some s) "http://p" = none →
      GetHttpClient (fun s => some s) (fun s => some s) initState "u" "http://p" false 0 =
        none) ∧
    (∀ x, (fun (s : String) => some s) "http://p" = some x →
      (GetHttpClient (fun s => some s) (fun s => some s) initState
          "u" "http://p" false 0).isSome = true ∧
      ∀ st2 c, GetHttpClient (fun s => some s) (fun s => some s) initState
          "u" "http://p" false 0 = some (st2, c) →
        st2.proxyTransport = some "http://p" ∧ st2.useMap = initState.useMap ∧
        st2.clientMap = initState.clientMap ∧
        c.transport = Transport.proxy "http://p" ∧
        c.jar = (if false then Jar.shared else Jar.fresh initState.nextJar))) :=
  ⟨by decide,
    C7_proxy_path (fun s => some s) (fun s => some s) initState "u" "http://p" false 0
      (by decide)⟩

/-- Claim C8: SetOption merges only non-zero/non-empty fields — every
configuration field whose option field is zero or absent keeps its prior
value; a non-empty addresses field appends to the pool and replaces the
per-address client cache with a new empty one, while an empty addresses field
leaves both untouched; the dispatch-state registry, the host-delay registry
and the proxy transport are never modified. -/
theorem C8_setOption_merge (opt : GoOption) (st : GoState) :
    ((SetOption opt st).useMap = st.useMap ∧
     (SetOption opt st).hostDelay = st.hostDelay ∧
     (SetOption opt st).proxyTransport = st.proxyTransport) ∧
    (opt.agent = "" →
      (SetOption opt st).defaultOption.agent = st.defaultOption.agent) ∧
    (¬ 0 < opt.connectTimeout →
      (SetOption opt st).defaultOption.connectTimeout = st.defaultOption.connectTimeout) ∧
    (¬ 0 < opt.delay →
      (SetOption opt st).defaultOption.delay = st.defaultOption.delay) ∧
    (¬ 0 < opt.maxRedirects →
      (SetOption opt st).defaultOption.maxRedirects = st.defaultOption.maxRedirects) ∧
    (¬ 0 < opt.maxIdleConns →
      (SetOption opt st).defaultOption.maxIdleConns = st.defaultOption.maxIdleConns ∧
      (SetOption opt st).defaultTransportMaxIdle = st.defaultTransportMaxIdle) ∧
    (opt.address = [] →
      (SetOption opt st).defaultOption.address = st.defaultOption.address ∧
      (SetOption opt st).clientMap = st.clientMap) ∧
    (opt.address ≠ [] →
      (SetOption opt st).defaultOption.address = st.defaultOption.address ++ opt.address ∧
      (SetOption opt st).clientMap = []) := by
  simp only [SetOption]
  split_ifs <;> simp_all

def optC8 : GoOption :=
  { address := ["x"], connectTimeout := 0, timeout := 0, agent := ""
    delay := 0, maxRedirects := 0, maxIdleConns := 0 }

/-- Witness for C8: an option carrying only a new address appends it, empties
the client cache, and leaves the registries and the other fields alone. -/
theorem C8_setOption_merge_witness :
    (optC8.agent = "" ∧ optC8.address ≠ []) ∧
    ((SetOption optC8 initState).useMap = initState.useMap ∧
     (SetOption optC8 initState).defaultOption.agent = initState.defaultOption.agent ∧
     (SetOption optC8 initState).defaultOption.address =
       initState.defaultOption.address ++ optC8.address ∧
     (SetOption optC8 initState).clientMap = []) :=
  ⟨⟨rfl, by decide⟩,
    (C8_setOption_merge optC8 initState).1.1,
    (C8_setOption_merge optC8 initState).2.1 rfl,
    (C8_setOption_merge optC8 initState).2.2.2.2.2.2.2 (by decide)⟩

def optC9 : GoOption :=
  { address := [], connectTimeout := 0, timeout := 5, agent := ""
    delay := 0, maxRedirects := 0, maxIdleConns := 0 }

/-- Counterexample to claim C9 as stated: an option carrying only the request
timeout field (5 ns) is ignored by SetOption — the stored timeout stays 0 —
and the client assembled by acquisition carries the fixed 60-second timeout,
not the configured 5. -/
theorem C9_counterexample :
    optC9.timeout = 5 ∧
    (SetOption optC9 initState).defaultOption.timeout = 0 ∧
    (MakeClient Transport.default Jar.shared).timeout = 60 * 1000000000 ∧
    (60 * 1000000000 : Int) ≠ 5 := by
  decide

/-- Claim C9 (amended): SetOption never applies the Timeout field of the
option — the stored request timeout is unchanged by every call — and every
client assembled by MakeClient carries the fixed 60-second timeout rather than
a configured one. -/
theorem C9_timeout_not_recognized (opt : GoOption) (st : GoState)
    (t : Transport) (j : Jar) :
    (SetOption opt st).defaultOption.timeout = st.defaultOption.timeout ∧
    (MakeClient t j).timeout = 60 * 1000000000 := by
  constructor
  · simp only [SetOption]
    split_ifs <;> simp
  · rfl

/-- The cursor safety invariant: every stored per-host cursor is either 0 or
strictly below the current pool length. -/
def cursorInv (st : GoState) : Prop :=
  ∀ q ∈ st.useMap, q.2.index = 0 ∨ q.2.index < st.defaultOption.address.length

theorem cursorInv_initState : cursorInv initState := by
  intro q hq
  simp [initState] at hq

theorem setOption_useMap_addr (opt : GoOption) (st : GoState) :
    (SetOption opt st).useMap = st.useMap ∧
    st.defaultOption.address.length ≤ (SetOption opt st).defaultOption.address.length := by
  simp only [SetOption]
  split_ifs <;> simp_all

theorem cursorInv_setOption (opt : GoOption) (st : GoState) (h : cursorInv st) :
    cursorInv (SetOption opt st) := by
  intro q hq
  obtain ⟨hm, hl⟩ := setOption_useMap_addr opt st
  rw [hm] at hq
  rcases h q hq with h0 | hlt
  · exact Or.inl h0
  · exact Or.inr (lt_of_lt_of_le hlt hl)

theorem cursorInv_dispatch (st : GoState) (host : String) (now : Int)
    (h : cursorInv st) : cursorInv (dispatchCompute st host now).state := by
  intro q hq
  rw [(dispatchCompute_frame st host now).1]
  cases hlu : lookupA st.useMap host with
  | none =>
    have hmap : (dispatchCompute st host now).state.useMap =
        insertA st.useMap host { index := 0, lastTime := now } := by
      simp [dispatchCompute, hlu]
    rw [hmap] at hq
    rcases mem_insertA hq with he | hm
    · left
      simp [he]
    · exact h q hm
  | some u =>
    have hmap : (dispatchCompute st host now).state.useMap =
        insertA st.useMap host (dispatchCompute st host now).use := by
      simp [dispatchCompute, hlu]
    rw [hmap] at hq
    rcases mem_insertA hq with he | hm
    · have hinv := h (host, u) (lookupA_mem hlu)
      by_cases hne : st.defaultOption.address.length = 0
      · left
        have hidx : (dispatchCompute st host now).use.index = u.index := by
          simp [dispatchCompute, hlu, hne]
        rw [he]
        simp only [hidx]
        rcases hinv with h0 | hlt
        · exact h0
        · omega
      · right
        have hidx : (dispatchCompute st host now).use.index =
            (u.index + 1) % st.defaultOption.address.length := by
          simp [dispatchCompute, hlu, hne]
        rw [he]
        simp only [hidx]
        exact Nat.mod_lt _ (by omega)
    · exact h q hm

theorem cursorInv_congr (st1 st2 : GoState)
    (hm : st2.useMap = st1.useMap)
    (ha : st2.defaultOption.address = st1.defaultOption.address)
    (h : cursorInv st1) : cursorInv st2 := by
  intro q hq
  rw [hm] at hq
  rw [ha]
  exact h q hq

theorem finishClient_fst (st : GoState) (res : clientResource) (uj : Bool) :
    ((finishClient st res uj).1).useMap = st.useMap ∧
    ((finishClient st res uj).1).defaultOption = st.defaultOption := by
  cases uj <;> simp [finishClient, MakeCookiejar]

theorem getClient_state_shape (parse resolve : String → Option String)
    (st : GoState) (urlStr proxy : String) (usejar : Bool) (now : Int)
    (st2 : GoState) (c : Client)
    (h : GetHttpClient parse resolve st urlStr proxy usejar now = some (st2, c)) :
    (st2.useMap = st.useMap ∧ st2.defaultOption = st.defaultOption) ∨
    (∃ host, parse urlStr = some host ∧
      st2.useMap = (dispatchCompute st host now).state.useMap ∧
      st2.defaultOption = st.defaultOption) := by
  by_cases hp : proxy ≠ ""
  · cases hpp : parse proxy with
    | none => simp [GetHttpClient, hp, hpp] at h
    | some x =>
      left
      cases hpt : st.proxyTransport <;> cases usejar <;>
        simp [GetHttpClient, hp, hpp, hpt, finishClient, MakeCookiejar, MakeClient] at h <;>
        obtain ⟨h1, _⟩ := h <;> subst h1 <;> simp
  · cases hpu : parse urlStr with
    | none => simp [GetHttpClient, hp, hpu] at h
    | some host =>
      right
      refine ⟨host, rfl, ?_⟩
      have hdo := (dispatchCompute_frame st host now).1
      unfold GetHttpClient at h
      rw [if_neg hp] at h
      simp only [hpu] at h
      split at h
      · cases usejar with
        | true =>
          simp [finishClient, MakeClient] at h
          obtain ⟨h1, h2⟩ := h
          subst h1
          exact ⟨rfl, hdo⟩
        | false =>
          simp [finishClient, MakeClient, MakeCookiejar] at h
          obtain ⟨h1, h2⟩ := h
          subst h1
          exact ⟨rfl, hdo⟩
      · split at h
        · cases usejar with
          | true =>
            simp [finishClient, MakeClient] at h
            obtain ⟨h1, h2⟩ := h
            subst h1
            exact ⟨rfl, hdo⟩
          | false =>
            simp [finishClient, MakeClient, MakeCookiejar] at h
            obtain ⟨h1, h2⟩ := h
            subst h1
            exact ⟨rfl, hdo⟩
        · cases usejar with
          | true =>
            simp [finishClient, MakeClient, MakeCookiejar] at h
            obtain ⟨h1, h2⟩ := h
            subst h1
            exact ⟨rfl, hdo⟩
          | false =>
            simp [finishClient, MakeClient, MakeCookiejar] at h
            obtain ⟨h1, h2⟩ := h
            subst h1
            exact ⟨rfl, hdo⟩

theorem cursorInv_stepOp (parse resolve : String → Option String)
    (st : GoState) (op : GoOp) (h : cursorInv st) :
    cursorInv (stepOp parse resolve st op) := by
  cases op with
  | setOpt o => exact cursorInv_setOption o st h
  | getClient u p j n =>
    cases hg : GetHttpClient parse resolve st u p j n with
    | none => simpa [stepOp, hg] using h
    | some q =>
      rcases getClient_state_shape parse resolve st u p j n q.1 q.2 hg with
        ⟨hm, hd⟩ | ⟨host, _, hm, hd⟩
      · simpa [stepOp, hg] using cursorInv_congr st q.1 hm (by rw [hd]) h
      · simpa [stepOp, hg] using cursorInv_congr _ q.1 hm
          (by rw [hd, (dispatchCompute_frame st host n).1])
          (cursorInv_dispatch st host n h)

theorem cursorInv_runOps (parse resolve : String → Option String)
    (ops : List GoOp) : ∀ st : GoState, cursorInv st →
    cursorInv (runOps parse resolve st ops) := by
  induction ops with
  | nil =>
    intro st h
    simpa [runOps] using h
  | cons op rest ih =>
    intro st h
    have h2 := cursorInv_stepOp parse resolve st op h
    simpa [runOps] using ih _ h2

/-- Claim C10: in every state reachable from the initial state by any sequence
of SetOption and GetHttpClient calls, every stored per-host cursor is strictly
below the pool length whenever the pool is non-empty, so the address lookup in
GetHttpClient never indexes out of bounds. -/
theorem C10_cursor_in_bounds (parse resolve : String → Option String)
    (ops : List GoOp) (q : String × UseInfo)
    (hmem : q ∈ (runOps parse resolve initState ops).useMap)
    (hne : (runOps parse resolve initState ops).defaultOption.address ≠ []) :
    q.2.index < (runOps parse resolve initState ops).defaultOption.address.length := by
  have hinv := cursorInv_runOps parse resolve ops initState cursorInv_initState
  rcases hinv q hmem with h0 | hlt
  · rw [h0]
    exact List.length_pos.mpr hne
  · exact hlt

def opsC10 : List GoOp :=
  [GoOp.setOpt optC8, GoOp.getClient "u" "" true 0]

/-- Witness for C10: after adding one pool address and acquiring a client for
a host, the stored cursor 0 is within the pool of length 1. -/
theorem C10_cursor_in_bounds_witness :
    (("h", ({ index := 0, lastTime := 0 } : UseInfo)) ∈
       (runOps (fun _ => some "h") (fun _ => none) initState opsC10).useMap ∧
     (runOps (fun _ => some "h") (fun _ => none) initState opsC10).defaultOption.address ≠ []) ∧
    (("h", ({ index := 0, lastTime := 0 } : UseInfo)).2.index <
      (runOps (fun _ => some "h") (fun _ => none) initState opsC10).defaultOption.address.length) :=
  ⟨⟨by decide, by decide⟩,
    C10_cursor_in_bounds (fun _ => some "h") (fun _ => none) opsC10
      ("h", { index := 0, lastTime := 0 }) (by decide) (by decide)⟩

end Gohttp
